import Mathlib

/-!
Shallow embedding of the LPC1768 countdown-timer firmware
(src/main.c, src/hal/systick.c, src/hal/gpio.h) and proofs about it.

Machine integers are modelled as `Nat` with explicit reduction modulo
2^32 wherever the C code performs 32-bit unsigned arithmetic that can
wrap. Division by zero is modelled as yielding 0, matching Lean `Nat`
division and the result of an unchecked Cortex-M UDIV with a zero
divisor (the C expression itself is undefined behaviour).
-/

namespace LpcAat

/-- The modulus of 32-bit unsigned arithmetic. -/
def U32 : Nat := 4294967296

/-- C `uint32_t` subtraction `a - b`: the value `(a - b) mod 2^32`.
Operands are reduced first so the definition is meaningful for any
`Nat` arguments; for representable values (`< U32`) it is exactly the
hardware subtraction. -/
def wsub (a b : Nat) : Nat := (a % U32 + (U32 - b % U32)) % U32

/-! ## MonotonicClock — src/hal/systick.c -/

/-- The state established by `systick_init`: the `LOAD` register value,
the stored `us_per_tick`, and the millisecond counter. -/
structure SystickConfig where
  load : Nat
  us_per_tick : Nat
  counter : Nat
deriving Repr, DecidableEq

/-- `systick_init(cpu_freq_hz)` from src/hal/systick.c:
`reload_value = (cpu_freq_hz / 1000) - 1` (uint32, wraps when
`cpu_freq_hz < 1000`), `LOAD = reload_value & 0x00FFFFFF`,
`us_per_tick = 1000000 / cpu_freq_hz`, `systick_counter = 0`.
No validation of the argument is performed by the source. -/
def systick_init (cpu_freq_hz : Nat) : SystickConfig :=
  { load := wsub (cpu_freq_hz % U32 / 1000) 1 % 16777216
    us_per_tick := 1000000 / (cpu_freq_hz % U32)
    counter := 0 }

/-- `SysTick_Handler` from src/hal/systick.c: the interrupt handler
increments the 32-bit millisecond counter (wrapping at 2^32). -/
def SysTick_Handler (c : Nat) : Nat := (c + 1) % U32

/-- The exit condition of the busy loop in `delay_ms`:
`(systick_counter - start) < ms` keeps looping, so the loop exits
exactly when `wsub now start ≥ ms`. -/
def delay_ms_done (start now ms : Nat) : Bool := decide (ms ≤ wsub now start)

/-- `ticks_needed = us / us_per_tick` from `delay_us`
(src/hal/systick.c line 92). Division by zero is modelled as 0. -/
def ticks_needed (us uspt : Nat) : Nat := us / uspt

/-- The wraparound-aware elapsed-tick computation inside the `delay_us`
busy loop: `if (current <= start) elapsed = start - current; else
elapsed = start + (reload - current);` (uint32 arithmetic). -/
def delay_us_elapsed (start current reload : Nat) : Nat :=
  if current ≤ start then start - current
  else (start + wsub reload current) % U32

/-- The exit condition of the `delay_us` busy loop:
`elapsed >= ticks_needed`. -/
def delay_us_done (start current reload needed : Nat) : Bool :=
  decide (needed ≤ delay_us_elapsed start current reload)

/-- `us_in_current_ms` from `micros()`:
`ticks_elapsed = reload - tick_val` (uint32), then
`(ticks_elapsed * 1000) / (reload + 1)` in uint32 arithmetic. -/
def us_in_current_ms (tick_val reload : Nat) : Nat :=
  wsub reload tick_val * 1000 % U32 / ((reload + 1) % U32)

/-- `micros()` from src/hal/systick.c: `(ms * 1000) + us_in_current_ms`
in uint32 arithmetic, `ms` being the snapshot of `systick_counter`. -/
def micros (ms tick_val reload : Nat) : Nat :=
  (ms * 1000 % U32 + us_in_current_ms tick_val reload) % U32

/-! ## CountdownStateMachine — src/main.c -/

/-- `timer_state_t` from src/main.c. -/
inductive TimerMode
  | set
  | running
  | paused
  | done
deriving Repr, DecidableEq

/-- The mutable application state of src/main.c: `state`,
`timer_value` (remaining seconds), `set_value` (target seconds) and
`last_tick` (the 1-second reference in milliseconds). -/
structure TimerState where
  state : TimerMode
  timer_value : Nat
  set_value : Nat
  last_tick : Nat
deriving Repr, DecidableEq

/-- `timer_update` from src/main.c: when running and
`current_time - last_tick >= 1000` (uint32 subtraction), set
`last_tick = current_time` and decrement `timer_value` if positive,
otherwise move to `STATE_DONE`. -/
def timer_update (current_time : Nat) (s : TimerState) : TimerState :=
  if s.state = TimerMode.running ∧ 1000 ≤ wsub current_time s.last_tick then
    if 0 < s.timer_value then
      { s with last_tick := current_time, timer_value := s.timer_value - 1 }
    else
      { s with last_tick := current_time, state := TimerMode.done }
  else s

/-- The `BTN_COUNTDOWN` edge handler in `process_buttons`:
in `STATE_SET`, copy `set_value` into `timer_value`. -/
def press_countdown (s : TimerState) : TimerState :=
  if s.state = TimerMode.set then { s with timer_value := s.set_value } else s

/-- The `BTN_SET` edge handler in `process_buttons`: in `STATE_SET`,
`set_value += 10` (uint32), wrap to 10 when above 5999, and refresh
`timer_value` to the new `set_value`. -/
def press_set (s : TimerState) : TimerState :=
  if s.state = TimerMode.set then
    let sv0 := (s.set_value + 10) % U32
    let sv := if 5999 < sv0 then 10 else sv0
    { s with set_value := sv, timer_value := sv }
  else s

/-- The `BTN_START` edge handler in `process_buttons`; `now` is the
`millis()` value read when re-arming the 1-second reference. -/
def press_start (now : Nat) (s : TimerState) : TimerState :=
  if s.state = TimerMode.set then
    { s with state := TimerMode.running, timer_value := s.set_value,
             last_tick := now }
  else if s.state = TimerMode.running then
    { s with state := TimerMode.paused }
  else if s.state = TimerMode.paused then
    { s with state := TimerMode.running, last_tick := now }
  else if s.state = TimerMode.done then
    { s with state := TimerMode.set, timer_value := s.set_value }
  else s

/-- The `BTN_RESET` edge handler in `process_buttons`: from any state,
`state = STATE_SET` and `timer_value = set_value`. -/
def press_reset (s : TimerState) : TimerState :=
  { s with state := TimerMode.set, timer_value := s.set_value }

/-- One debounced event delivered to the state machine: a button edge
handled by `process_buttons`, or a `timer_update` call with the current
`millis()` reading. -/
inductive Event
  | countdownBtn
  | setBtn
  | startBtn (now : Nat)
  | resetBtn
  | update (now : Nat)

/-- Dispatch one event to its handler from src/main.c. -/
def step (e : Event) (s : TimerState) : TimerState :=
  match e with
  | Event.countdownBtn => press_countdown s
  | Event.setBtn => press_set s
  | Event.startBtn now => press_start now s
  | Event.resetBtn => press_reset s
  | Event.update now => timer_update now s

/-- The boot state of src/main.c: `state = STATE_SET`,
`set_value = 60`, and `main` copies `timer_value = set_value` before
entering the loop; `last_tick` starts at 0. -/
def boot : TimerState :=
  { state := TimerMode.set, timer_value := 60, set_value := 60, last_tick := 0 }

/-- Run a sequence of events through the state machine. -/
def run : List Event → TimerState → TimerState
  | [], s => s
  | e :: rest, s => run rest (step e s)

/-- The data-model invariant of the spec:
`set_seconds ∈ [10, 5999]` and `remaining_seconds ≤ 5999`. -/
def Inv (s : TimerState) : Prop :=
  10 ≤ s.set_value ∧ s.set_value ≤ 5999 ∧ s.timer_value ≤ 5999

instance (s : TimerState) : Decidable (Inv s) := by
  unfold Inv; infer_instance

/-! ## InputDebouncer — read_button in src/main.c -/

/-- `read_button` from src/main.c, as a pure function of the raw GPIO
level and the stored previous level: `current = !gpio_read(pin)`
(active low), `pressed = current && !prev`, and the previous level is
updated to `current` unconditionally. Returns `(pressed, new_prev)`.
The 50 ms settle delay is a timing side effect with no influence on
the returned values. -/
def read_button (raw_level : Bool) (prev_state : Bool) : Bool × Bool :=
  let current := !raw_level
  (current && !prev_state, current)

/-- Poll a button over a sequence of raw levels, threading the stored
previous level; returns the list of `pressed` results. -/
def poll_run : List Bool → Bool → List Bool
  | [], _ => []
  | raw :: rest, prev =>
    (read_button raw prev).1 :: poll_run rest (read_button raw prev).2

/-! ## DisplayMultiplexer — src/main.c and src/hal/gpio.h -/

/-- `GPIO_PIN(port, pin) = (port << 5) | (pin & 0x1F)` from
src/hal/gpio.h. -/
def GPIO_PIN (port pin : Nat) : Nat := port * 32 + pin % 32

/-- `seg_pins` from src/main.c: P0_0 .. P0_7. -/
def seg_pins : List Nat :=
  [GPIO_PIN 0 0, GPIO_PIN 0 1, GPIO_PIN 0 2, GPIO_PIN 0 3,
   GPIO_PIN 0 4, GPIO_PIN 0 5, GPIO_PIN 0 6, GPIO_PIN 0 7]

/-- `digit_pins` from src/main.c: P2_0 .. P2_3. -/
def digit_pins : List Nat :=
  [GPIO_PIN 2 0, GPIO_PIN 2 1, GPIO_PIN 2 2, GPIO_PIN 2 3]

/-- `SEG_DP` (P0_7). -/
def SEG_DP : Nat := GPIO_PIN 0 7

/-- `seg_patterns` from src/main.c. -/
def seg_patterns : List Nat :=
  [0x3F, 0x06, 0x5B, 0x4F, 0x66, 0x6D, 0x7D, 0x07, 0x7F, 0x6F]

/-- The observable output state: the logic level driven on each pin. -/
def PinState : Type := Nat → Bool

/-- `gpio_write(pin, value)` as a pin-state update. -/
def gpio_write (pin : Nat) (value : Bool) (s : PinState) : PinState :=
  fun p => if p = pin then value else s p

/-- The first phase of `display_digit`: the loop writing `GPIO_LOW` to
all four digit-enable pins. -/
def digits_off (s : PinState) : PinState :=
  digit_pins.foldl (fun st pin => gpio_write pin false st) s

/-- `write_segment(pattern)` from src/main.c: writes bit `i` of the
pattern to segment pin `i` for `i = 0..6`. -/
def write_segment (pattern : Nat) (s : PinState) : PinState :=
  (List.range 7).foldl
    (fun st i => gpio_write (seg_pins.getD i 0) (Nat.testBit pattern i) st) s

/-- `display_digit(digit_pos, value, dp)` from src/main.c: turn off all
digit enables, write the segment pattern (blank when `value > 9`),
write the decimal point, then enable the selected digit. -/
def display_digit (digit_pos value : Nat) (dp : Bool) (s : PinState) : PinState :=
  let s1 := digits_off s
  let s2 := write_segment (if value ≤ 9 then seg_patterns.getD value 0 else 0) s1
  let s3 := gpio_write SEG_DP dp s2
  gpio_write (digit_pins.getD digit_pos 0) true s3

/-- `display_number(number)` from src/main.c, with the static
`current_digit` made explicit: renders one digit position and advances
`current_digit` to `(current_digit + 1) % 4`. Returns the new pin state
and the new `current_digit`. -/
def display_number (number current_digit : Nat) (s : PinState) : PinState × Nat :=
  let d1 := (number / 1000) % 10
  let d2 := (number / 100) % 10
  let d3 := (number / 10) % 10
  let d4 := number % 10
  let s1 :=
    match current_digit with
    | 0 => display_digit 0 d1 false s
    | 1 => display_digit 1 d2 true s
    | 2 => display_digit 2 d3 false s
    | 3 => display_digit 3 d4 false s
    | _ => s
  (s1, (current_digit + 1) % 4)

/-- The digit position visited by the next `display_number` call after
one with counter `c`. -/
def mux_next (c : Nat) : Nat := (display_number 0 c (fun _ => false)).2

/-- The digit positions used by `k` consecutive `display_number`
invocations starting from counter value `c`. -/
def mux_positions : Nat → Nat → List Nat
  | 0, _ => []
  | k + 1, c => c :: mux_positions k (mux_next c)

/-! ## Helper lemmas -/

/-- Iterating the tick interrupt handler `e` times from counter value
`a` yields `(a + e) mod 2^32`. -/
theorem handler_iterate (e : Nat) : ∀ a : Nat, a < U32 →
    SysTick_Handler^[e] a = (a + e) % U32 := by
  induction e with
  | zero =>
    intro a ha
    simpa using (Nat.mod_eq_of_lt ha).symm
  | succ n ih =>
    intro a ha
    rw [Function.iterate_succ_apply]
    have h1 : SysTick_Handler a = (a + 1) % U32 := rfl
    rw [h1, ih ((a + 1) % U32) (Nat.mod_lt _ (by unfold U32; omega)),
        Nat.mod_add_mod]
    congr 1
    omega

theorem step_preserves_inv (e : Event) (s : TimerState) (h : Inv s) :
    Inv (step e s) := by
  obtain ⟨h1, h2, h3⟩ := h
  cases e with
  | countdownBtn =>
    show Inv (press_countdown s)
    unfold press_countdown
    split
    · exact ⟨h1, h2, h2⟩
    · exact ⟨h1, h2, h3⟩
  | setBtn =>
    show Inv (press_set s)
    simp only [press_set]
    split
    · unfold Inv U32
      dsimp only
      split <;> omega
    · exact ⟨h1, h2, h3⟩
  | startBtn now =>
    show Inv (press_start now s)
    unfold press_start
    split_ifs <;> first
      | exact ⟨h1, h2, h2⟩
      | exact ⟨h1, h2, h3⟩
  | resetBtn =>
    show Inv (press_reset s)
    exact ⟨h1, h2, h2⟩
  | update now =>
    show Inv (timer_update now s)
    unfold timer_update
    split_ifs <;> refine ⟨h1, h2, ?_⟩ <;> (try dsimp only) <;> omega

theorem run_preserves_inv (es : List Event) : ∀ s : TimerState, Inv s →
    Inv (run es s) := by
  induction es with
  | nil => intro s h; exact h
  | cons e rest ih =>
    intro s h
    exact ih (step e s) (step_preserves_inv e s h)

/-- A held button: polling any number of not-pressed-to-pressed-free
raw-low samples with previous level already `true` reports no press. -/
theorem poll_run_held (n : Nat) :
    poll_run (List.replicate n false) true = List.replicate n false := by
  induction n with
  | zero => rfl
  | succ k ih =>
    simpa [List.replicate_succ, poll_run, read_button] using ih

/-- From a released previous level, a run of raw-low (pressed) samples
reports `true` exactly on the first poll. -/
theorem poll_run_first_press (n : Nat) :
    poll_run (List.replicate (n + 1) false) false =
      true :: List.replicate n false := by
  simp [List.replicate_succ, poll_run, read_button, poll_run_held]

/-- The stored previous level after processing a list of raw samples. -/
def poll_end : List Bool → Bool → Bool
  | [], p => p
  | raw :: rest, _ => poll_end rest (!raw)

theorem poll_run_append (xs : List Bool) : ∀ (ys : List Bool) (p : Bool),
    poll_run (xs ++ ys) p = poll_run xs p ++ poll_run ys (poll_end xs p) := by
  induction xs with
  | nil => intro ys p; rfl
  | cons x rest ih =>
    intro ys p
    simp [poll_run, poll_end, read_button, ih]

theorem poll_end_replicate (n : Nat) : ∀ p : Bool,
    poll_end (List.replicate (n + 1) false) p = true := by
  induction n with
  | zero => intro p; rfl
  | succ k ih =>
    intro p
    rw [List.replicate_succ, poll_end]
    exact ih true

theorem gpio_write_ne (pin : Nat) (v : Bool) (s : PinState) (p : Nat)
    (h : p ≠ pin) : gpio_write pin v s p = s p := by
  simp [gpio_write, h]

/-- `write_segment` only drives pins 0–6; any other pin keeps its level. -/
theorem write_segment_other (pattern : Nat) (s : PinState) (p : Nat)
    (h : 7 ≤ p) : write_segment pattern s p = s p := by
  have h0 : p ≠ 0 := by omega
  have h1 : p ≠ 1 := by omega
  have h2 : p ≠ 2 := by omega
  have h3 : p ≠ 3 := by omega
  have h4 : p ≠ 4 := by omega
  have h5 : p ≠ 5 := by omega
  have h6 : p ≠ 6 := by omega
  have hr : List.range 7 = [0, 1, 2, 3, 4, 5, 6] := rfl
  unfold write_segment
  rw [hr]
  simp only [List.foldl_cons, List.foldl_nil]
  simp [gpio_write, seg_pins, GPIO_PIN, List.getD, h0, h1, h2, h3, h4, h5, h6]

/-- After the de-assert phase of `display_digit`, every digit-enable
line is low. -/
theorem digits_off_at (s : PinState) (i : Nat) (hi : i < 4) :
    digits_off s (digit_pins.getD i 0) = false := by
  interval_cases i <;> rfl

/-! ## Claim theorems -/

/-- A concrete running state for exercising `timer_update`:
running, 5 seconds remaining, reference tick at 0 ms. -/
def c1_state : TimerState :=
  { state := TimerMode.running, timer_value := 5, set_value := 60, last_tick := 0 }

/-- C1 counterexample: with 1500 ms elapsed since `last_tick = 0`, the
per-second update sets `last_tick` to 1500, which does not differ from
the old value by a multiple of 1000 — so `last_tick` is merely reset to
the current time, not advanced by whole 1000 ms windows. -/
theorem timer_update_resets_to_now_cex :
    1000 ≤ wsub 1500 c1_state.last_tick ∧
    (timer_update 1500 c1_state).last_tick = 1500 ∧
    ((timer_update 1500 c1_state).last_tick - c1_state.last_tick) % 1000 ≠ 0 := by
  decide

/-- C1 (amended): in `Running`, whenever at least 1000 ms have elapsed
since `last_tick` (32-bit modular difference), the per-second update
sets `last_tick` to the current time itself, discarding the sub-second
residual. -/
theorem timer_update_sets_last_tick_to_now (t : Nat) (s : TimerState)
    (h1 : s.state = TimerMode.running) (h2 : 1000 ≤ wsub t s.last_tick) :
    (timer_update t s).last_tick = t := by
  unfold timer_update
  rw [if_pos ⟨h1, h2⟩]
  split <;> rfl

/-- C1 witness: the amended statement at the concrete input. -/
theorem timer_update_sets_last_tick_to_now_witness :
    (timer_update 1500 c1_state).last_tick = 1500 :=
  timer_update_sets_last_tick_to_now 1500 c1_state rfl (by decide)

/-- A concrete running state with one second remaining. -/
def c2_state : TimerState :=
  { state := TimerMode.running, timer_value := 1, set_value := 60, last_tick := 0 }

/-- C2 counterexample: from `Running` with `timer_value = 1` and
1000 ms elapsed, one `timer_update` leaves `timer_value = 0` but the
state is still not `Done`. -/
theorem timer_done_needs_second_tick_cex :
    1000 ≤ wsub 1000 c2_state.last_tick ∧
    (timer_update 1000 c2_state).timer_value = 0 ∧
    (timer_update 1000 c2_state).state ≠ TimerMode.done := by
  decide

/-- C2 (amended): from `Running` with `remaining_seconds = 1` and
≥ 1000 ms elapsed, the per-second update yields `remaining_seconds = 0`
with the state still `Running`; `Done` is only entered by the next
per-second update (a further ≥ 1000 ms later) while the value stays 0. -/
theorem timer_update_zero_then_done (t t2 : Nat) (s : TimerState)
    (h1 : s.state = TimerMode.running) (hv : s.timer_value = 1)
    (h2 : 1000 ≤ wsub t s.last_tick) (h3 : 1000 ≤ wsub t2 t) :
    (timer_update t s).timer_value = 0 ∧
    (timer_update t s).state = TimerMode.running ∧
    (timer_update t2 (timer_update t s)).state = TimerMode.done ∧
    (timer_update t2 (timer_update t s)).timer_value = 0 := by
  have hs : timer_update t s = { s with last_tick := t, timer_value := 0 } := by
    unfold timer_update
    rw [if_pos ⟨h1, h2⟩, if_pos (by omega)]
    rw [hv]
  have hs2 : timer_update t2 ({ s with last_tick := t, timer_value := 0 }) =
      { s with last_tick := t2, timer_value := 0, state := TimerMode.done } := by
    unfold timer_update
    rw [if_pos ⟨h1, h3⟩]
    rw [if_neg (by show ¬ (0 : Nat) < 0; omega)]
  rw [hs, hs2]
  exact ⟨rfl, h1, rfl, rfl⟩

/-- C2 witness: the amended statement at the concrete input. -/
theorem timer_update_zero_then_done_witness :
    (timer_update 1000 c2_state).timer_value = 0 ∧
    (timer_update 1000 c2_state).state = TimerMode.running ∧
    (timer_update 2000 (timer_update 1000 c2_state)).state = TimerMode.done ∧
    (timer_update 2000 (timer_update 1000 c2_state)).timer_value = 0 :=
  timer_update_zero_then_done 1000 2000 c2_state rfl rfl (by decide) (by decide)

/-- C3: `systick_init(0)` is not rejected — the source performs both
tick-rate divisions unconditionally and produces a degenerate
configuration: the reload computation `(0 / 1000) - 1` wraps to
`0xFFFFFFFF` and is masked to `0xFFFFFF`, and `us_per_tick` is the
division `1000000 / 0` (undefined behaviour in C; 0 on an unchecked
Cortex-M divide, and 0 in this model). No configuration error exists
anywhere in the code path. -/
theorem systick_init_zero_freq_accepted :
    systick_init 0 =
      { load := 16777215, us_per_tick := 0, counter := 0 } := by
  decide

/-- C4 counterexample: at the 12 MHz frequency `main` actually passes
to `systick_init`, the stored `us_per_tick = 1000000 / 12000000` floors
to 0, so `ticks_needed = us / us_per_tick` is a division by zero
(modelled as 0), and the busy-wait exit condition already holds at the
very first poll of the counter (elapsed 0 ticks) — a requested 500 µs
delay returns immediately, undershooting. -/
theorem delay_us_truncates_cex :
    (systick_init 12000000).us_per_tick = 0 ∧
    ticks_needed 500 (systick_init 12000000).us_per_tick = 0 ∧
    delay_us_done 7000 7000 11999
      (ticks_needed 500 (systick_init 12000000).us_per_tick) = true := by
  decide

/-- C4 (amended): for any configured frequency above 1 MHz (a `uint32`
value, and in particular the 12 MHz used at boot), `us_per_tick` floors
to 0, the ticks-needed computation divides by that zero value (yielding
0), and the `delay_us` busy loop terminates at its first reading of the
counter, so every sub-millisecond request can return with no time
elapsed — undershooting rather than rounding up. -/
theorem delay_us_returns_immediately (f us start reload : Nat)
    (hf : 1000000 < f) (hf32 : f < U32) :
    (systick_init f).us_per_tick = 0 ∧
    ticks_needed us (systick_init f).us_per_tick = 0 ∧
    delay_us_done start start reload
      (ticks_needed us (systick_init f).us_per_tick) = true := by
  have h0 : (systick_init f).us_per_tick = 0 := by
    show 1000000 / (f % U32) = 0
    rw [Nat.mod_eq_of_lt hf32]
    exact Nat.div_eq_of_lt hf
  have h1 : ticks_needed us (systick_init f).us_per_tick = 0 := by
    rw [h0]
    exact Nat.div_zero us
  refine ⟨h0, h1, ?_⟩
  rw [h1]
  simp [delay_us_done]

/-- C4 witness: the amended statement at the concrete boot frequency. -/
theorem delay_us_returns_immediately_witness :
    (systick_init 12000000).us_per_tick = 0 ∧
    ticks_needed 350 (systick_init 12000000).us_per_tick = 0 ∧
    delay_us_done 5000 5000 11999
      (ticks_needed 350 (systick_init 12000000).us_per_tick) = true :=
  delay_us_returns_immediately 12000000 350 5000 11999 (by decide) (by decide)

/-- C5: if reading `a` is taken and the tick interrupt then fires `e`
times (`e < 2^32`), the second reading is `SysTick_Handler` iterated
`e` times, and the `uint32` modular difference recovers the true
elapsed count `e` even across a wraparound; consequently the `delay_ms`
busy-loop exit condition holds exactly when the true elapsed time has
reached the requested `ms`, so `delay_ms` waits at least `ms`
milliseconds. -/
theorem delay_ms_wraparound_correct (a e ms : Nat) (ha : a < U32) (he : e < U32) :
    wsub (SysTick_Handler^[e] a) a = e ∧
    (delay_ms_done a (SysTick_Handler^[e] a) ms = true ↔ ms ≤ e) := by
  rw [handler_iterate e a ha]
  constructor
  · unfold wsub U32 at *
    omega
  · unfold delay_ms_done wsub U32 at *
    rw [decide_eq_true_eq]
    omega

/-- C5 witness: a reading 300 ms before the 2^32 wraparound followed by
500 interrupts crosses the boundary, and the modular difference still
reports 500. -/
theorem delay_ms_wraparound_correct_witness :
    wsub (SysTick_Handler^[500] 4294966996) 4294966996 = 500 ∧
    (delay_ms_done 4294966996 (SysTick_Handler^[500] 4294966996) 400 = true ↔
      400 ≤ 500) :=
  delay_ms_wraparound_correct 4294966996 500 400 (by decide) (by decide)

/-- C6: `read_button` reports a press exactly when the sampled
active-low level is pressed (raw low) and the stored previous level was
not pressed; it stores the current sample unconditionally; a button
held low over `n + 1` consecutive polls reports `true` only on the
first poll; and after a release sample the next hold reports `true`
exactly once again. -/
theorem read_button_edge_once :
    (∀ raw prev : Bool,
      ((read_button raw prev).1 = true ↔ raw = false ∧ prev = false) ∧
      (read_button raw prev).2 = !raw) ∧
    (∀ n : Nat, poll_run (List.replicate (n + 1) false) false =
      true :: List.replicate n false) ∧
    (∀ n m : Nat,
      poll_run (List.replicate (n + 1) false ++ true :: List.replicate (m + 1) false)
        false =
      (true :: List.replicate n false) ++
        false :: true :: List.replicate m false) := by
  refine ⟨?_, poll_run_first_press, ?_⟩
  · intro raw prev
    cases raw <;> cases prev <;> simp [read_button]
  · intro n m
    rw [poll_run_append, poll_run_first_press, poll_end_replicate]
    have hstep : poll_run (true :: List.replicate (m + 1) false) true =
        false :: poll_run (List.replicate (m + 1) false) false := by
      simp [poll_run, read_button]
    rw [hstep, poll_run_first_press]

/-- C7: starting from the boot state (`set_value = 60`), every sequence
of button events and timer updates keeps `set_value ∈ [10, 5999]` and
`timer_value ≤ 5999`; moreover, in `Set` mode under the invariant, the
increment handler adds exactly 10 to `set_value`, wraps any sum
exceeding 5999 back to exactly 10, and copies the new `set_value` into
`timer_value`. -/
theorem timer_invariant_preserved :
    (∀ es : List Event, Inv (run es boot)) ∧
    (∀ s : TimerState, Inv s → s.state = TimerMode.set →
      ((s.set_value + 10 ≤ 5999 → (press_set s).set_value = s.set_value + 10) ∧
       (5999 < s.set_value + 10 → (press_set s).set_value = 10) ∧
       (press_set s).timer_value = (press_set s).set_value)) := by
  constructor
  · intro es
    exact run_preserves_inv es boot (by decide)
  · intro s hInv hset
    obtain ⟨hl, hu, ht⟩ := hInv
    have hm : (s.set_value + 10) % U32 = s.set_value + 10 := by
      apply Nat.mod_eq_of_lt
      unfold U32
      omega
    simp only [press_set, if_pos hset]
    rw [hm]
    refine ⟨?_, ?_, ?_⟩
    · intro hle
      rw [if_neg (by omega)]
    · intro hgt
      rw [if_pos (by omega)]
    · trivial

/-- C7 witness: the invariant after a concrete event sequence, and the
increment at the boot state. -/
theorem timer_invariant_preserved_witness :
    Inv (run [Event.setBtn, Event.startBtn 0, Event.update 1200] boot) ∧
    (press_set boot).set_value = boot.set_value + 10 :=
  ⟨timer_invariant_preserved.1 [Event.setBtn, Event.startBtn 0, Event.update 1200],
   (timer_invariant_preserved.2 boot (by decide) rfl).1 (by decide)⟩

/-- C8: for every state and every field valuation, the Reset handler
returns to `Set` with `timer_value = set_value` and leaves `set_value`
unchanged. -/
theorem press_reset_resets_to_set (s : TimerState) :
    (press_reset s).state = TimerMode.set ∧
    (press_reset s).timer_value = s.set_value ∧
    (press_reset s).set_value = s.set_value :=
  ⟨rfl, rfl, rfl⟩

/-- C9: each `display_digit` call first drives all four digit-enable
lines low (the `digits_off` phase), its final pin state asserts exactly
the enable line of the selected position, and four consecutive
`display_number` invocations visit positions 0, 1, 2, 3 exactly once
each, in cyclic order from the initial counter 0. -/
theorem display_mux_one_digit_cycle :
    (∀ (s : PinState) (i : Nat), i < 4 →
      digits_off s (digit_pins.getD i 0) = false) ∧
    (∀ (s : PinState) (pos value : Nat) (dp : Bool) (i : Nat),
      pos < 4 → i < 4 →
      display_digit pos value dp s (digit_pins.getD i 0) = decide (i = pos)) ∧
    mux_positions 4 0 = [0, 1, 2, 3] ∧
    (∀ c, c < 4 → (mux_positions 4 c).Perm [0, 1, 2, 3]) := by
  refine ⟨digits_off_at, ?_, by decide, by decide⟩
  intro s pos value dp i hpos hi
  unfold display_digit
  by_cases h : i = pos
  · subst h
    simp [gpio_write]
  · have hq : digit_pins.getD i 0 ≠ digit_pins.getD pos 0 := by
      interval_cases i <;> interval_cases pos <;> first | decide | (exact absurd rfl h)
    have h7 : digit_pins.getD i 0 ≠ SEG_DP := by
      interval_cases i <;> decide
    have h64 : 7 ≤ digit_pins.getD i 0 := by
      interval_cases i <;> decide
    rw [gpio_write_ne _ _ _ _ hq, gpio_write_ne _ _ _ _ h7,
        write_segment_other _ _ _ h64, digits_off_at s i hi]
    simp [h]

/-- C9 witness: the three universally quantified parts at concrete
inputs. -/
theorem display_mux_one_digit_cycle_witness :
    digits_off (fun _ => true) (digit_pins.getD 2 0) = false ∧
    display_digit 1 7 true (fun _ => true) (digit_pins.getD 3 0) =
      decide ((3 : Nat) = 1) ∧
    (mux_positions 4 2).Perm [0, 1, 2, 3] :=
  ⟨display_mux_one_digit_cycle.1 (fun _ => true) 2 (by decide),
   display_mux_one_digit_cycle.2.1 (fun _ => true) 1 7 true 3 (by decide) (by decide),
   display_mux_one_digit_cycle.2.2.2 2 (by decide)⟩

/-- C10: `micros()` equals `(systick_counter * 1000 + microseconds
within the current millisecond) mod 2^32` — the stepwise `uint32`
arithmetic of the source agrees with the single final reduction — and
at the 12 MHz reload of 11999 the value wraps between tick counts
4294967 and 4294968 ms, i.e. after about 71.6 minutes, far before the
millisecond counter itself wraps. -/
theorem micros_mod_2_32_wrap :
    (∀ ms tick_val reload : Nat,
      micros ms tick_val reload =
        (ms * 1000 + us_in_current_ms tick_val reload) % U32) ∧
    micros 4294967 11999 11999 = 4294967000 ∧
    micros 4294968 11999 11999 = 704 ∧
    micros 4294968 11999 11999 < micros 4294967 11999 11999 := by
  refine ⟨?_, by decide, by decide, by decide⟩
  intro ms tick_val reload
  unfold micros
  rw [Nat.mod_add_mod]

end LpcAat
